import Mathlib

/-!
Shallow embedding of the grade-merge core of `src/app.py` (the
Brightspace–Cisco grade updater).  A pandas `DataFrame` is modelled as a
column-name list plus rows of cell values; a scalar cell is a `Value`
(missing value / string / number).  Python floats are modelled by `Rat`:
the merge engine only parses and stores numbers, it performs no arithmetic
on them, so exact rationals are a faithful stand-in for every value the
code ever compares or writes.
-/

/-- Cell value of a table: a missing value (pandas `NaN`), a string, or a
number (Python `float`, modelled as a rational). -/
inductive Value where
  | null : Value
  | str : String → Value
  | num : Rat → Value
  deriving DecidableEq, Repr

/-- Python `str.strip()`: drop leading and trailing whitespace. -/
def pyStrip (s : String) : String :=
  ⟨((s.data.dropWhile Char.isWhitespace).reverse.dropWhile Char.isWhitespace).reverse⟩

/-- Python `str.lower()` (ASCII case folding, which covers every name the
program compares). -/
def pyLower (s : String) : String :=
  ⟨s.data.map Char.toLower⟩

/-- Auxiliary for `pySplit`: accumulate the current word (reversed). -/
def pySplitAux : List Char → List Char → List String
  | [], acc => if acc.isEmpty then [] else [⟨acc.reverse⟩]
  | c :: cs, acc =>
    if c.isWhitespace then
      if acc.isEmpty then pySplitAux cs [] else ⟨acc.reverse⟩ :: pySplitAux cs []
    else pySplitAux cs (c :: acc)

/-- Python `str.split()` with no argument: split on whitespace runs,
dropping empty pieces. -/
def pySplit (s : String) : List String := pySplitAux s.data []

/-- Whether `needle` occurs as a contiguous infix of the list (Python's
substring operator `in`). -/
def hasInfix (needle : List Char) : List Char → Bool
  | [] => needle.isEmpty
  | x :: xs => needle.isPrefixOf (x :: xs) || hasInfix needle xs

/-- Python `pat in hay` on strings: substring containment. -/
def strContains (hay pat : String) : Bool := hasInfix pat.data hay.data

/-- Base-10 value of a digit list. -/
def digitsVal (ds : List Char) : Nat :=
  ds.foldl (fun a c => a * 10 + (c.toNat - 48)) 0

/-- Split off a leading run of decimal digits. -/
def spanDigits (cs : List Char) : List Char × List Char :=
  (cs.takeWhile Char.isDigit, cs.dropWhile Char.isDigit)

/-- Optional leading sign of a numeric literal. -/
def parseSign : List Char → Int × List Char
  | '+' :: r => (1, r)
  | '-' :: r => (-1, r)
  | cs => (1, cs)

/-- Apply an `e`/`E` exponent suffix to a mantissa, if well formed. -/
def applyExp (m : Rat) (rest : List Char) : Option Rat :=
  let p := parseSign rest
  let d := spanDigits p.2
  if d.1.isEmpty || !d.2.isEmpty then none
  else some (if p.1 ≥ 0 then m * (10 : Rat) ^ digitsVal d.1 else m / (10 : Rat) ^ digitsVal d.1)

/-- Build the parsed number from sign, integer digits, fraction digits and
the remaining characters (which may only be an exponent suffix). -/
def finishNum (sg : Int) (ip fp rest : List Char) : Option Rat :=
  if ip.isEmpty && fp.isEmpty then none
  else
    let m : Rat := mkRat (sg * Int.ofNat (digitsVal (ip ++ fp))) ((10 : Nat) ^ fp.length)
    match rest with
    | [] => some m
    | 'e' :: r => applyExp m r
    | 'E' :: r => applyExp m r
    | _ => none

/-- Python `float(s)` applied to a string: strip whitespace, then an
optional sign, decimal digits with an optional fractional part, and an
optional exponent.  (The named forms `inf`/`nan` and underscore digit
separators accepted by Python are not modelled; no behaviour settled here
depends on them.) -/
def parseFloat (s : String) : Option Rat :=
  let cs := (pyStrip s).data
  let p := parseSign cs
  let ipr := spanDigits p.2
  match ipr.2 with
  | '.' :: r =>
    let fpr := spanDigits r
    finishNum p.1 ipr.1 fpr.1 fpr.2
  | _ => finishNum p.1 ipr.1 [] ipr.2

/-- Python `str(...)` of a cell, as the code applies it to email and grade
cells: `str(nan)` is `"nan"`; a number renders to a decimal form.  `Rat`'s
rendering stands in for float repr — the merge only ever needs that a
numeric cell's string form is non-blank, which both renderings satisfy. -/
def pyStr : Value → String
  | .null => "nan"
  | .str s => s
  | .num q => toString q

/-- Blank test of `update_brightspace_grades` (app.py lines 496-498):
`pd.isna(g) or str(g).strip() == '' or str(g).strip() == ' '`.  A stripped
string can never equal `' '`, so that disjunct is vacuous; a numeric cell
renders to a non-blank string. -/
def isBlank : Value → Bool
  | .null => true
  | .str s => pyStrip s == ""
  | .num _ => false

/-- Numeric coercion of a non-blank grade (app.py lines 502-505):
`try: float(g) except: str(g).strip()`.  `float` of an actual float
returns it unchanged; a missing value never reaches coercion because the
blank test catches it first. -/
def coerceGrade : Value → Value
  | .num q => .num q
  | .str s =>
    match parseFloat s with
    | some q => .num q
    | none => .str (pyStrip s)
  | .null => .null

/-- Email normalisation `.astype(str).str.strip().str.lower()`
(app.py lines 453-454 and 301). -/
def normCell (v : Value) : String := pyLower (pyStrip (pyStr v))

/-- A pandas DataFrame: named columns and positional rows of cells. -/
structure DataFrame where
  cols : List String
  rows : List (List Value)
  deriving DecidableEq, Repr

/-- Index of the first list element satisfying `p`. -/
def firstIdx (p : α → Bool) : List α → Option Nat
  | [] => none
  | x :: xs => if p x then some 0 else (firstIdx p xs).map (· + 1)

/-- Position of a column label in the column list. -/
def colIdx (cols : List String) (c : String) : Option Nat :=
  firstIdx (fun x => x == c) cols

/-- Read the cell of a row under a column label (missing label or short
row reads as a missing value). -/
def rowGet (cols : List String) (row : List Value) (c : String) : Value :=
  match colIdx cols c with
  | some j => row.getD j .null
  | none => .null

/-- Read the cell at row `i`, column `c`. -/
def getCell (df : DataFrame) (i : Nat) (c : String) : Value :=
  rowGet df.cols (df.rows.getD i []) c

/-- Write the cell at row `i` of an existing column `c`
(`df.at[i, c] = v`; every write the merge performs targets a label taken
from the column list, so the enlargement pandas would do for a fresh label
cannot occur). -/
def setCell (df : DataFrame) (i : Nat) (c : String) (v : Value) : DataFrame :=
  match colIdx df.cols c with
  | some j => ⟨df.cols, df.rows.set i ((df.rows.getD i []).set j v)⟩
  | none => df

/-- Column assignment `df[c] = vs`: overwrite the column in place when the
label exists, otherwise append it as a new last column. -/
def assignCol (df : DataFrame) (c : String) (vs : List Value) : DataFrame :=
  match colIdx df.cols c with
  | some j => ⟨df.cols, List.zipWith (fun r v => r.set j v) df.rows vs⟩
  | none => ⟨df.cols ++ [c], List.zipWith (fun r v => r ++ [v]) df.rows vs⟩

/-- Drop a column by label (`df.drop(c, axis=1)`), a no-op when absent —
the code guards the drop with a membership test. -/
def dropCol (df : DataFrame) (c : String) : DataFrame :=
  match colIdx df.cols c with
  | some j => ⟨df.cols.eraseIdx j, df.rows.map (fun r => r.eraseIdx j)⟩
  | none => df

/-- Values of one column, in row order. -/
def colVals (df : DataFrame) (c : String) : List Value :=
  df.rows.map (fun r => rowGet df.cols r c)

/-- Well-formedness: every row has one cell per column. -/
def wf (df : DataFrame) : Bool :=
  df.rows.all (fun r => r.length == df.cols.length)

/-- Metadata column names that are never assignments
(app.py lines 312-316). -/
def non_assignment_columns : List String :=
  ["NAME", "EMAIL", "Final Exam Submitted", "Survey Submitted",
   "Completion", "Final Exam Score", "Assessment( Average )",
   "Class Grade %", "Networking Essentials: Course Final Exam"]

/-- Keywords marking a gradeable column (app.py line 329). -/
def assignment_keywords : List String :=
  ["checkpoint", "exam", "quiz", "test", "activity"]

/-- Extraction of gradeable assignment columns from the provider table
(app.py lines 308-336).  The surrounding try/except is dead in this model:
every operation in the loop is total. -/
def extract_available_assignments (cisco_df : DataFrame) : List String :=
  cisco_df.cols.foldl
    (fun acc col =>
      if non_assignment_columns.contains col then acc
      else if assignment_keywords.any (fun k => strContains (pyLower col) k) then acc ++ [col]
      else acc)
    []

/-- Static provider-name → gradebook-fragment table (app.py lines 411-424,
identical to `create_column_mapping` at lines 372-388). -/
def static_mapping : List (String × String) :=
  [("Checkpoint Exam: Build a Small Network",
    "Checkpoint Exam - Build a Small Network Points Grade"),
   ("Checkpoint Exam: Network Access",
    "Checkpoint Exam - Network Access Points Grade"),
   ("Checkpoint Exam: The Internet Protocol",
    "Checkpoint Exam - Internet Protocol Points Grade"),
   ("Checkpoint Exam: Communication Between Networks",
    "Checkpoint Exam: Communication Between Networks Points Grade"),
   ("Checkpoint Exam: Protocols for Specific Tasks",
    "Checkpoint Exam – Protocols for Specific Tasks(1) Points Grade"),
   ("Checkpoint Exam: Characteristics of Network Design",
    "Checkpoint Exam – Characteristics of Network Design Points Grade"),
   ("Checkpoint Exam: Network Addressing",
    "Checkpoint Exam – Network Addressing Points Grade"),
   ("Checkpoint Exam: ARP, DNS, DHCP and the Transport Layer",
    "Checkpoint Exam – ARP DNS DHCP and the Transport Layer Points Grade"),
   ("Checkpoint Exam: Configure Cisco Devices",
    "Checkpoint Exam – Configure Cisco Devices Points Grade"),
   ("Checkpoint Exam: Physical, Data Link, and Network Layers",
    "Checkpoint Exam – Physical Data Link and Network Layers Points Grade"),
   ("Checkpoint Exam: IP Addressing",
    "Checkpoint Exam – IP Addressing Points Grade"),
   ("Checkpoint Exam: Cisco Devices and Troubleshooting Network Issues",
    "Checkpoint Exam – Cisco Devices Points Grade")]

/-- Dictionary lookup `static_mapping[cisco_col]`, guarded by
`cisco_col in static_mapping`. -/
def lookupStatic (a : String) : Option String :=
  (static_mapping.find? (fun p => p.1 == a)).map Prod.snd

/-- Best-matching gradebook column for a search term
(app.py lines 390-404): first a substring scan, then a scan for any
lowercased whitespace token of the term; first column in order wins. -/
def find_brightspace_column (cols : List String) (term : String) : Option String :=
  match cols.find? (fun c => strContains c term) with
  | some c => some c
  | none =>
    let keyTerms := pySplit (pyLower term)
    cols.find? (fun c => keyTerms.any (fun t => strContains (pyLower c) t))

/-- Dynamic mapping from selected assignments to gradebook columns
(app.py lines 406-439).  The selected assignments form a Python set, so
they are pairwise distinct and iterated in some fixed order; the model
takes that order as a list, and dict insertion of a fresh key is list
append. -/
def create_dynamic_column_mapping (selected : List String)
    (brightspace_columns : List String) : List (String × String) :=
  selected.foldl
    (fun m cisco_col =>
      match lookupStatic cisco_col with
      | some frag =>
        match find_brightspace_column brightspace_columns frag with
        | some bc => m ++ [(cisco_col, bc)]
        | none => m
      | none =>
        match find_brightspace_column brightspace_columns cisco_col with
        | some bc => m ++ [(cisco_col, bc)]
        | none => m)
    []

/-- Counter record returned by the merge (app.py lines 461-468). -/
structure Summary where
  matched : Nat
  updated : Nat
  notFound : Nat
  selectedCount : Nat
  mappedCount : Nat
  blankProcessed : Nat
  deriving DecidableEq, Repr

/-- The all-zero summary returned on a setup failure
(app.py lines 537-544). -/
def zeroSummary : Summary := ⟨0, 0, 0, 0, 0, 0⟩

/-- Inner loop body of the merge (app.py lines 490-516): one
(assignment, gradebook-column) pair applied to one matched student at
gradebook row `bIdx`.  The per-column try/except is dead in this model:
every operation is total. -/
def processPair (set_blanks_to_zero : Bool) (ciscoCols : List String)
    (ciscoRow : List Value) (bIdx : Nat) (st : DataFrame × Summary)
    (pair : String × String) : DataFrame × Summary :=
  if ciscoCols.contains pair.1 then
    let g := rowGet ciscoCols ciscoRow pair.1
    if isBlank g then
      if set_blanks_to_zero then
        (setCell st.1 bIdx pair.2 (.num 0),
         { st.2 with updated := st.2.updated + 1,
                     blankProcessed := st.2.blankProcessed + 1 })
      else st
    else
      (setCell st.1 bIdx pair.2 (coerceGrade g),
       { st.2 with updated := st.2.updated + 1 })
  else st

/-- Normalised email of a provider row, read back from its
`EMAIL_normalized` cell (app.py line 473). -/
def rowEmailNorm (ciscoCols : List String) (row : List Value) : String :=
  pyStr (rowGet ciscoCols row "EMAIL_normalized")

/-- Skip test for a provider row (app.py line 476): `pd.isna(e)` is
subsumed by the `"nan"` comparison once the cell has been read through
`str`. -/
def rowSkipped (e : String) : Bool := e == "nan" || pyStrip e == ""

/-- Index of the first gradebook row whose `Email_normalized` cell equals
the given email (app.py lines 480 and 487). -/
def matchIdx (df : DataFrame) (e : String) : Option Nat :=
  firstIdx (fun r => rowGet df.cols r "Email_normalized" == Value.str e) df.rows

/-- Outer loop body of the merge (app.py lines 471-526): one provider row.
The per-row try/except is dead in this model: every operation is total. -/
def processRow (set_blanks_to_zero : Bool) (mapping : List (String × String))
    (ciscoCols : List String) (st : DataFrame × Summary) (ciscoRow : List Value) :
    DataFrame × Summary :=
  let e := rowEmailNorm ciscoCols ciscoRow
  if rowSkipped e then st
  else
    match matchIdx st.1 e with
    | none => (st.1, { st.2 with notFound := st.2.notFound + 1 })
    | some i =>
      mapping.foldl (processPair set_blanks_to_zero ciscoCols ciscoRow i)
        (st.1, { st.2 with matched := st.2.matched + 1 })

/-- The gradebook copy with the helper column `Email_normalized` assigned
(app.py lines 448 and 453). -/
def normalizedGradebook (bdf : DataFrame) : DataFrame :=
  assignCol bdf "Email_normalized" ((colVals bdf "Email").map (fun v => .str (normCell v)))

/-- The provider copy with the helper column `EMAIL_normalized` assigned
(app.py lines 449 and 454). -/
def normalizedProvider (cdf : DataFrame) : DataFrame :=
  assignCol cdf "EMAIL_normalized" ((colVals cdf "EMAIL").map (fun v => .str (normCell v)))

/-- The merge engine `update_brightspace_grades` (app.py lines 441-544).
Setup fails exactly when the gradebook lacks `Email` or the provider lacks
`EMAIL` (the two column reads at lines 453-454 are the only fallible setup
steps); the outer except then returns the caller's original table and a
zeroed summary. -/
def update_brightspace_grades (brightspace_df cisco_df : DataFrame)
    (selected_assignments : List String) (set_blanks_to_zero : Bool) :
    DataFrame × Summary :=
  if brightspace_df.cols.contains "Email" && cisco_df.cols.contains "EMAIL" then
    let udf := normalizedGradebook brightspace_df
    let cdf2 := normalizedProvider cisco_df
    let mapping := create_dynamic_column_mapping selected_assignments udf.cols
    let sm0 : Summary :=
      { matched := 0, updated := 0, notFound := 0,
        selectedCount := selected_assignments.length,
        mappedCount := mapping.length, blankProcessed := 0 }
    let res := cdf2.rows.foldl (processRow set_blanks_to_zero mapping cdf2.cols) (udf, sm0)
    (dropCol res.1 "Email_normalized", res.2)
  else (brightspace_df, zeroSummary)

/-- Gradebook columns the resolved mapping writes into, for one run. -/
def mergeTargets (bdf : DataFrame) (selected : List String) : List String :=
  (create_dynamic_column_mapping selected (normalizedGradebook bdf).cols).map Prod.snd

/-- Whether gradebook row `i` is the first match of some non-skipped
provider row, judged against the freshly normalised tables. -/
def matchedRow (bdf cdf : DataFrame) (i : Nat) : Bool :=
  (normalizedProvider cdf).rows.any (fun row =>
    let e := rowEmailNorm (normalizedProvider cdf).cols row
    !rowSkipped e && decide (matchIdx (normalizedGradebook bdf) e = some i))

/-- Spec predicate (§4.2 of the spec): a provider column is gradeable iff
it is not in the fixed exclusion set and its lowercased name contains one
of the keywords. -/
def gradeableSpec (c : String) : Bool :=
  !non_assignment_columns.contains c
    && assignment_keywords.any (fun k => strContains (pyLower c) k)

/-- Invariant threaded through the merge fold in the frame theorem: the
working table keeps the normalised gradebook's columns, row count,
well-formedness and `Email_normalized` column, and agrees with it on
every cell of an original gradebook column that is either outside the
mapping's targets or in a row never matched. -/
def FrameInv (bdf cdf : DataFrame) (sel : List String) (df : DataFrame) : Prop :=
  df.cols = (normalizedGradebook bdf).cols
  ∧ df.rows.length = (normalizedGradebook bdf).rows.length
  ∧ wf df = true
  ∧ (∀ i : Nat, getCell df i "Email_normalized"
      = getCell (normalizedGradebook bdf) i "Email_normalized")
  ∧ (∀ i : Nat, ∀ c : String, c ∈ bdf.cols →
      (c ∉ mergeTargets bdf sel ∨ matchedRow bdf cdf i = false) →
      getCell df i c = getCell (normalizedGradebook bdf) i c)

/-! ## Generic lemmas about `firstIdx` and list indexing -/

theorem firstIdx_lt {p : α → Bool} :
    ∀ {l : List α} {j : Nat}, firstIdx p l = some j → j < l.length := by
  intro l
  induction l with
  | nil => intro j h; simp [firstIdx] at h
  | cons x xs ih =>
    intro j h
    unfold firstIdx at h
    by_cases hx : p x
    · rw [if_pos hx] at h
      injection h with h
      subst h
      simp
    · simp [hx] at h
      obtain ⟨k, hk, rfl⟩ := h
      have := ih hk
      simp only [List.length_cons]
      omega

theorem firstIdx_none {p : α → Bool} :
    ∀ {l : List α}, (∀ x ∈ l, p x = false) → firstIdx p l = none := by
  intro l
  induction l with
  | nil => intro _; rfl
  | cons x xs ih =>
    intro h
    unfold firstIdx
    rw [h x (by simp), ih (fun y hy => h y (by simp [hy]))]
    rfl

theorem firstIdx_isSome {p : α → Bool} {l : List α} {x : α}
    (hx : x ∈ l) (hp : p x = true) : ∃ j, firstIdx p l = some j := by
  induction l with
  | nil => cases hx
  | cons y ys ih =>
    unfold firstIdx
    by_cases hy : p y
    · exact ⟨0, by simp [hy]⟩
    · rcases List.mem_cons.mp hx with rfl | hmem
      · exact absurd hp hy
      · obtain ⟨j, hj⟩ := ih hmem
        exact ⟨j + 1, by simp [hy, hj]⟩

theorem firstIdx_getD {p : α → Bool} {d : α} :
    ∀ {l : List α} {j : Nat}, firstIdx p l = some j → p (l.getD j d) = true := by
  intro l
  induction l with
  | nil => intro j h; simp [firstIdx] at h
  | cons x xs ih =>
    intro j h
    unfold firstIdx at h
    by_cases hx : p x
    · simp [hx] at h
      simp [← h, List.getD]
      exact hx
    · simp [hx] at h
      obtain ⟨k, hk, rfl⟩ := h
      simpa [List.getD] using ih hk

theorem firstIdx_append_of_some {p : α → Bool} :
    ∀ {l₁ : List α} {j : Nat} (l₂ : List α),
      firstIdx p l₁ = some j → firstIdx p (l₁ ++ l₂) = some j := by
  intro l₁
  induction l₁ with
  | nil => intro j l₂ h; simp [firstIdx] at h
  | cons x xs ih =>
    intro j l₂ h
    unfold firstIdx at h ⊢
    by_cases hx : p x
    · simpa [hx] using h
    · simp [hx] at h ⊢
      obtain ⟨k, hk, rfl⟩ := h
      exact ⟨k, ih l₂ hk, rfl⟩

theorem firstIdx_append_of_none {p : α → Bool} :
    ∀ {l₁ : List α} (l₂ : List α), firstIdx p l₁ = none →
      firstIdx p (l₁ ++ l₂) = (firstIdx p l₂).map (· + l₁.length) := by
  intro l₁
  induction l₁ with
  | nil => intro l₂ _; simp
  | cons x xs ih =>
    intro l₂ h
    unfold firstIdx at h
    by_cases hx : p x
    · simp [hx] at h
    · rw [if_neg (by simpa using hx), Option.map_eq_none'] at h
      rw [List.cons_append]
      have hstep : firstIdx p (x :: (xs ++ l₂))
          = if p x = true then some 0 else (firstIdx p (xs ++ l₂)).map (· + 1) := rfl
      rw [hstep, if_neg (by simpa using hx), ih l₂ h]
      cases firstIdx p l₂ with
      | none => simp
      | some k => simp [Nat.add_assoc]

theorem colIdx_mem {cols : List String} {c : String} (h : c ∈ cols) :
    ∃ j, colIdx cols c = some j :=
  firstIdx_isSome h (by simp)

theorem colIdx_not_mem {cols : List String} {c : String} (h : c ∉ cols) :
    colIdx cols c = none := by
  apply firstIdx_none
  intro x hx
  simp only [beq_eq_false_iff_ne, ne_eq]
  rintro rfl
  exact h hx

theorem colIdx_getD {cols : List String} {c : String} {j : Nat}
    (h : colIdx cols c = some j) : cols.getD j "" = c := by
  have := firstIdx_getD (d := "") h
  simpa using this

theorem colIdx_injective_labels {cols : List String} {c c' : String} {j j' : Nat}
    (hc : colIdx cols c = some j) (hc' : colIdx cols c' = some j')
    (hne : c ≠ c') : j ≠ j' := by
  intro hjj
  apply hne
  rw [← colIdx_getD hc, ← colIdx_getD hc', hjj]

theorem getD_set_self {l : List α} {i : Nat} {v d : α} (h : i < l.length) :
    (l.set i v).getD i d = v := by
  simp [List.getD_eq_getElem?_getD, List.getElem?_set_self h]

theorem getD_set_ne {l : List α} {i k : Nat} {v d : α} (h : i ≠ k) :
    (l.set i v).getD k d = l.getD k d := by
  simp [List.getD_eq_getElem?_getD, List.getElem?_set_ne h]

theorem getD_append_left {l₁ l₂ : List α} {j : Nat} {d : α} (h : j < l₁.length) :
    (l₁ ++ l₂).getD j d = l₁.getD j d := by
  simp [List.getD_eq_getElem?_getD, List.getElem?_append_left h]

theorem getD_append_len {l₁ : List α} {x d : α} :
    (l₁ ++ [x]).getD l₁.length d = x := by
  simp [List.getD_eq_getElem?_getD, List.getElem?_append_right (Nat.le_refl _)]

theorem getD_map {l : List α} {f : α → β} {i : Nat} {d : β} {e : α} (h : i < l.length) :
    (l.map f).getD i d = f (l.getD i e) := by
  simp [List.getD_eq_getElem?_getD, List.getElem?_map, List.getElem?_eq_getElem h]

theorem getD_eraseIdx_lt {l : List α} {i j : Nat} {d : α} (h : j < i) :
    (l.eraseIdx i).getD j d = l.getD j d := by
  simp [List.getD_eq_getElem?_getD, List.getElem?_eraseIdx_of_lt _ _ _ h]

theorem getD_zipWith {f : α → β → γ} {l₁ : List α} {l₂ : List β} {i : Nat}
    {d : γ} {a : α} {b : β} (h₁ : i < l₁.length) (h₂ : i < l₂.length) :
    (List.zipWith f l₁ l₂).getD i d = f (l₁.getD i a) (l₂.getD i b) := by
  simp [List.getD_eq_getElem?_getD, List.getElem?_zipWith,
    List.getElem?_eq_getElem h₁, List.getElem?_eq_getElem h₂]

theorem getD_of_ge {l : List α} {i : Nat} {d : α} (h : l.length ≤ i) :
    l.getD i d = d := by
  simp [List.getD_eq_getElem?_getD, List.getElem?_eq_none h]

theorem eraseIdx_append_len {l : List α} {x : α} :
    (l ++ [x]).eraseIdx l.length = l := by
  induction l with
  | nil => rfl
  | cons y ys ih => simpa [List.eraseIdx] using ih

/-- Folding the "keep if `p`" accumulator is `filter`. -/
theorem foldl_append_filter (p : α → Bool) :
    ∀ (l acc : List α),
      l.foldl (fun a x => if p x then a ++ [x] else a) acc = acc ++ l.filter p := by
  intro l
  induction l with
  | nil => simp
  | cons x xs ih =>
    intro acc
    by_cases h : p x
    · simp [h, ih, List.filter_cons]
    · simp [h, ih, List.filter_cons]

theorem wf_row_length {df : DataFrame} (h : wf df = true) {i : Nat}
    (hi : i < df.rows.length) : (df.rows.getD i []).length = df.cols.length := by
  have hall := List.all_eq_true.mp h
  have hmem : df.rows.getD i [] ∈ df.rows := by
    rw [List.getD_eq_getElem?_getD, List.getElem?_eq_getElem hi, Option.getD_some]
    exact List.getElem_mem hi
  simpa using hall _ hmem

theorem setCell_cols (df : DataFrame) (i : Nat) (c : String) (v : Value) :
    (setCell df i c v).cols = df.cols := by
  unfold setCell
  cases colIdx df.cols c <;> rfl

theorem setCell_rows_length (df : DataFrame) (i : Nat) (c : String) (v : Value) :
    (setCell df i c v).rows.length = df.rows.length := by
  unfold setCell
  cases colIdx df.cols c <;> simp

theorem rowGet_eq {cols : List String} {row : List Value} {c : String} {j : Nat}
    (h : colIdx cols c = some j) : rowGet cols row c = row.getD j .null := by
  unfold rowGet
  simp only [h]

theorem rowGet_of_none {cols : List String} {row : List Value} {c : String}
    (h : colIdx cols c = none) : rowGet cols row c = .null := by
  unfold rowGet
  simp only [h]

theorem getCell_setCell_self {df : DataFrame} {i : Nat} {c : String} {v : Value}
    (hwf : wf df = true) (hi : i < df.rows.length) (hc : c ∈ df.cols) :
    getCell (setCell df i c v) i c = v := by
  obtain ⟨j, hj⟩ := colIdx_mem hc
  have hjlt : j < df.cols.length := firstIdx_lt hj
  have hrow : (df.rows.getD i []).length = df.cols.length := wf_row_length hwf hi
  unfold setCell
  simp only [hj]
  unfold getCell
  rw [rowGet_eq hj]
  rw [show (DataFrame.mk df.cols (df.rows.set i ((df.rows.getD i []).set j v))).rows
      = df.rows.set i ((df.rows.getD i []).set j v) from rfl]
  rw [getD_set_self hi, getD_set_self (by rw [hrow]; exact hjlt)]

theorem getCell_setCell_ne {df : DataFrame} {i k : Nat} {c c' : String} {v : Value}
    (h : c ≠ c' ∨ i ≠ k) :
    getCell (setCell df i c v) k c' = getCell df k c' := by
  unfold setCell
  cases hx : colIdx df.cols c with
  | none => rfl
  | some j =>
    simp only
    cases hx' : colIdx df.cols c' with
    | none =>
      unfold getCell
      rw [rowGet_of_none hx', rowGet_of_none hx']
    | some j' =>
      unfold getCell
      rw [rowGet_eq hx', rowGet_eq hx']
      rw [show (DataFrame.mk df.cols (df.rows.set i ((df.rows.getD i []).set j v))).rows
          = df.rows.set i ((df.rows.getD i []).set j v) from rfl]
      rcases h with h | h
      · have hjj : j ≠ j' := colIdx_injective_labels hx hx' h
        by_cases hik : i = k
        · subst hik
          by_cases hilen : i < df.rows.length
          · rw [getD_set_self hilen, getD_set_ne hjj]
          · rw [List.set_eq_of_length_le (Nat.le_of_not_lt hilen)]
        · rw [getD_set_ne hik]
      · rw [getD_set_ne h]

/-! ## Claim theorems -/

/-- C1: on the concrete end-to-end input (gradebook row `a@x.com` with a
blank `Quiz1 Grade` cell; provider row `Alice` / `' A@X.com '` / empty
`Quiz1`; assignment `Quiz1` selected; blanks set to zero), the merge
returns the table with `Quiz1 Grade` equal to numeric 0 for `a@x.com` and
the summary (matched 1, updated 1, not-found 0, selected 1, mapped 1,
blanks processed 1). -/
theorem claim1_end_to_end :
    update_brightspace_grades ⟨["Email", "Quiz1 Grade"], [[.str "a@x.com", .null]]⟩
      ⟨["NAME", "EMAIL", "Quiz1"], [[.str "Alice", .str " A@X.com ", .str ""]]⟩
      ["Quiz1"] true
    = (⟨["Email", "Quiz1 Grade"], [[.str "a@x.com", .num 0]]⟩, ⟨1, 1, 0, 1, 1, 1⟩) := by
  decide

/-- C4: whenever merge setup fails before row iteration (the gradebook has
no `Email` column, or the provider has no `EMAIL` column — the only
fallible setup steps), the merge returns the caller's original gradebook
table together with the all-zero six-counter summary. -/
theorem claim4_setup_failure (bdf cdf : DataFrame) (sel : List String) (bz : Bool)
    (h : bdf.cols.contains "Email" = false ∨ cdf.cols.contains "EMAIL" = false) :
    update_brightspace_grades bdf cdf sel bz = (bdf, zeroSummary) := by
  unfold update_brightspace_grades
  have hcond : (bdf.cols.contains "Email" && cdf.cols.contains "EMAIL") = false := by
    rcases h with h | h
    · rw [h, Bool.false_and]
    · rw [h, Bool.and_false]
  rw [hcond]
  simp

/-- Witness for C4 at a concrete input: a gradebook without `Email`. -/
theorem claim4_setup_failure_witness :
    update_brightspace_grades ⟨["Mail"], [[.str "a@x.com"]]⟩ ⟨["NAME", "EMAIL"], []⟩ [] false
    = (⟨["Mail"], [[.str "a@x.com"]]⟩, zeroSummary) :=
  claim4_setup_failure _ _ _ _ (Or.inl (by decide))

/-- C7: with gradebook columns `["Checkpoint Exam - Network Access Points
Grade", "Other"]` and selected assignment `"Checkpoint Exam: Network
Access"`, the resolved correspondence maps the assignment to the first
column, via the static table followed by substring search. -/
theorem claim7_static_mapping_deterministic :
    create_dynamic_column_mapping ["Checkpoint Exam: Network Access"]
      ["Checkpoint Exam - Network Access Points Grade", "Other"]
    = [("Checkpoint Exam: Network Access",
        "Checkpoint Exam - Network Access Points Grade")] := by
  decide

/-- The extraction loop is exactly a filter by the spec predicate. -/
theorem extract_eq_filter (df : DataFrame) :
    extract_available_assignments df = df.cols.filter gradeableSpec := by
  unfold extract_available_assignments
  have hfun :
      (fun (acc : List String) col =>
          if non_assignment_columns.contains col then acc
          else if assignment_keywords.any (fun k => strContains (pyLower col) k) then
            acc ++ [col]
          else acc)
        = fun (acc : List String) col => if gradeableSpec col then acc ++ [col] else acc := by
    funext acc col
    unfold gradeableSpec
    cases h1 : non_assignment_columns.contains col with
    | true => rw [if_pos rfl, Bool.not_true, Bool.false_and, if_neg (by simp)]
    | false => rw [if_neg (by simp), Bool.not_false, Bool.true_and]
  rw [hfun, foldl_append_filter]
  simp

/-- C8: `extract_available_assignments` returns exactly the provider
columns, in source order, outside the fixed exclusion set whose lowercased
name contains a keyword; every excluded name is skipped even when it
contains a keyword (in particular `Networking Essentials: Course Final
Exam`). -/
theorem claim8_extract_assignments (df : DataFrame) :
    extract_available_assignments df = df.cols.filter gradeableSpec
    ∧ ∀ c ∈ non_assignment_columns, c ∉ extract_available_assignments df := by
  refine ⟨extract_eq_filter df, ?_⟩
  intro c hc hmem
  rw [extract_eq_filter df] at hmem
  have hp : gradeableSpec c = true := (List.mem_filter.mp hmem).2
  simp only [gradeableSpec, Bool.and_eq_true, Bool.not_eq_true'] at hp
  have h2 : non_assignment_columns.contains c = true := List.elem_eq_true_of_mem hc
  rw [h2] at hp
  exact Bool.noConfusion hp.1

/-- Witness for C8 at a concrete provider table, showing the keyword hit
`Quiz1` kept and the excluded final-exam column skipped. -/
theorem claim8_extract_assignments_witness :
    extract_available_assignments
        ⟨["NAME", "EMAIL", "Quiz1", "Networking Essentials: Course Final Exam", "Other"], []⟩
      = ["Quiz1"]
    ∧ "Networking Essentials: Course Final Exam" ∉ extract_available_assignments
        ⟨["NAME", "EMAIL", "Quiz1", "Networking Essentials: Course Final Exam", "Other"], []⟩ := by
  have h := claim8_extract_assignments
    ⟨["NAME", "EMAIL", "Quiz1", "Networking Essentials: Course Final Exam", "Other"], []⟩
  exact ⟨h.1.trans (by decide), h.2 _ (by decide)⟩

/-- C9: a provider row whose normalised email reads back as `"nan"` (the
string form pandas gives a missing value) or as blank is skipped entirely:
the state — table and every counter — is returned unchanged; and a missing
`EMAIL` cell normalises to exactly `"nan"`. -/
theorem claim9_nan_email_skipped (bz : Bool) (mapping : List (String × String))
    (ccols : List String) (df : DataFrame) (sm : Summary) (crow : List Value)
    (h : rowEmailNorm ccols crow = "nan" ∨ pyStrip (rowEmailNorm ccols crow) = "") :
    processRow bz mapping ccols (df, sm) crow = (df, sm)
    ∧ normCell Value.null = "nan" := by
  refine ⟨?_, by decide⟩
  have hs : rowSkipped (rowEmailNorm ccols crow) = true := by
    unfold rowSkipped
    rcases h with h | h <;> simp [h]
  unfold processRow
  simp [hs]

/-- Witness for C9: a provider row whose `EMAIL` cell is missing, and a
student whose literal email text normalises to `nan`. -/
theorem claim9_nan_email_skipped_witness :
    processRow true [] ["EMAIL_normalized"] (⟨["Email"], [[.str "x@y.com"]]⟩, zeroSummary)
        [Value.str "nan"]
      = (⟨["Email"], [[.str "x@y.com"]]⟩, zeroSummary) :=
  (claim9_nan_email_skipped true [] ["EMAIL_normalized"] _ _ _ (Or.inl (by decide))).1

/-- C10: the column correspondence is not injective: the two distinct
assignments `Quiz Alpha` and `Quiz Beta` both resolve (by the
keyword-token fallback on `quiz`) to the single gradebook column
`Quiz Grade`, and in the merge the second write overwrites the first —
the final cell holds the second assignment's value even though the
grades-updated counter counts both writes. -/
theorem claim10_mapping_not_injective :
    create_dynamic_column_mapping ["Quiz Alpha", "Quiz Beta"]
        ["Email", "Quiz Grade", "Email_normalized"]
      = [("Quiz Alpha", "Quiz Grade"), ("Quiz Beta", "Quiz Grade")]
    ∧ getCell (update_brightspace_grades ⟨["Email", "Quiz Grade"], [[.str "a@x.com", .null]]⟩
          ⟨["NAME", "EMAIL", "Quiz Alpha", "Quiz Beta"],
           [[.str "Al", .str "a@x.com", .str "1", .str "2"]]⟩
          ["Quiz Alpha", "Quiz Beta"] false).1 0 "Quiz Grade" = .num 2
    ∧ (update_brightspace_grades ⟨["Email", "Quiz Grade"], [[.str "a@x.com", .null]]⟩
          ⟨["NAME", "EMAIL", "Quiz Alpha", "Quiz Beta"],
           [[.str "Al", .str "a@x.com", .str "1", .str "2"]]⟩
          ["Quiz Alpha", "Quiz Beta"] false).2.updated = 2 := by
  refine ⟨by decide, by decide, by decide⟩

/-- C2: for a mapped (assignment, gradebook-column) pair whose provider
cell is blank (missing, or stripping its string form leaves nothing —
which covers the empty string and a single space), the per-pair merge
step under the set-blanks-to-zero policy writes numeric 0 into the
matched row's target cell and increments both the grades-updated and
blank-grades-processed counters by one; under the leave-unset policy it
returns the state unchanged, so the cell keeps its previous value and no
counter moves. -/
theorem claim2_blank_policy (ccols : List String) (crow : List Value) (i : Nat)
    (df : DataFrame) (sm : Summary) (a bc : String)
    (ha : ccols.contains a = true)
    (hb : isBlank (rowGet ccols crow a) = true)
    (hwf : wf df = true) (hi : i < df.rows.length) (hbc : bc ∈ df.cols) :
    (processPair true ccols crow i (df, sm) (a, bc)
        = (setCell df i bc (.num 0),
           { sm with updated := sm.updated + 1,
                     blankProcessed := sm.blankProcessed + 1 })
      ∧ getCell (processPair true ccols crow i (df, sm) (a, bc)).1 i bc = .num 0)
    ∧ processPair false ccols crow i (df, sm) (a, bc) = (df, sm) := by
  have hzero : processPair true ccols crow i (df, sm) (a, bc)
      = (setCell df i bc (.num 0),
         { sm with updated := sm.updated + 1,
                   blankProcessed := sm.blankProcessed + 1 }) := by
    unfold processPair
    rw [if_pos ha, if_pos hb, if_pos rfl]
  have hleave : processPair false ccols crow i (df, sm) (a, bc) = (df, sm) := by
    unfold processPair
    rw [if_pos ha, if_pos hb, if_neg (by simp)]
  refine ⟨⟨hzero, ?_⟩, hleave⟩
  rw [hzero]
  exact getCell_setCell_self hwf hi hbc

/-- Witness for C2 at a concrete blank cell (a missing provider value). -/
theorem claim2_blank_policy_witness :
    getCell (processPair true ["Quiz1"] [Value.null] 0
        (⟨["Quiz1 Grade"], [[.str "x"]]⟩, zeroSummary) ("Quiz1", "Quiz1 Grade")).1
        0 "Quiz1 Grade" = .num 0
    ∧ processPair false ["Quiz1"] [Value.null] 0
        (⟨["Quiz1 Grade"], [[.str "x"]]⟩, zeroSummary) ("Quiz1", "Quiz1 Grade")
      = (⟨["Quiz1 Grade"], [[.str "x"]]⟩, zeroSummary) := by
  have h := claim2_blank_policy ["Quiz1"] [Value.null] 0
    ⟨["Quiz1 Grade"], [[.str "x"]]⟩ zeroSummary "Quiz1" "Quiz1 Grade"
    (by decide) (by decide) (by decide) (by decide) (by decide)
  exact ⟨h.1.2, h.2⟩

/-- C5: for a mapped pair whose provider cell is not blank, the per-pair
merge step (under either blank policy) writes the coerced value into the
matched row's target cell and increments the grades-updated counter by
one; for a string cell the coerced value is the parsed float when the
string parses as one, and otherwise its stripped string form. -/
theorem claim5_numeric_coercion (bz : Bool) (ccols : List String) (crow : List Value)
    (i : Nat) (df : DataFrame) (sm : Summary) (a bc : String)
    (ha : ccols.contains a = true)
    (hb : isBlank (rowGet ccols crow a) = false)
    (hwf : wf df = true) (hi : i < df.rows.length) (hbc : bc ∈ df.cols) :
    processPair bz ccols crow i (df, sm) (a, bc)
        = (setCell df i bc (coerceGrade (rowGet ccols crow a)),
           { sm with updated := sm.updated + 1 })
    ∧ getCell (processPair bz ccols crow i (df, sm) (a, bc)).1 i bc
        = coerceGrade (rowGet ccols crow a)
    ∧ (∀ s : String, rowGet ccols crow a = .str s →
        coerceGrade (rowGet ccols crow a)
          = match parseFloat s with
            | some q => .num q
            | none => .str (pyStrip s)) := by
  have hwrite : processPair bz ccols crow i (df, sm) (a, bc)
      = (setCell df i bc (coerceGrade (rowGet ccols crow a)),
         { sm with updated := sm.updated + 1 }) := by
    unfold processPair
    rw [if_pos ha, if_neg (by simp [hb])]
  refine ⟨hwrite, ?_, ?_⟩
  · rw [hwrite]
    exact getCell_setCell_self hwf hi hbc
  · intro s hs
    rw [hs]
    rfl

/-- Witness for C5 at the concrete cell "85.5", which coerces to the
number 855/10 = 85.5. -/
theorem claim5_numeric_coercion_witness :
    getCell (processPair true ["Quiz1"] [Value.str "85.5"] 0
        (⟨["Quiz1 Grade"], [[.null]]⟩, zeroSummary) ("Quiz1", "Quiz1 Grade")).1
        0 "Quiz1 Grade" = .num (mkRat 171 2) := by
  have h := claim5_numeric_coercion true ["Quiz1"] [Value.str "85.5"] 0
    ⟨["Quiz1 Grade"], [[.null]]⟩ zeroSummary "Quiz1" "Quiz1 Grade"
    (by decide) (by decide) (by decide) (by decide) (by decide)
  exact h.2.1.trans (by decide)

/-- C6 counterexample: the provider email `" NAN "` normalises to the
non-empty string `"nan"`, which matches no gradebook row, yet the
Students Not Found counter stays 0 (the claim predicts 1) because the
row is silently discarded by the nan guard before the lookup. -/
theorem claim6_counterexample :
    normCell (Value.str " NAN ") = "nan"
    ∧ ("nan" : String) ≠ ""
    ∧ matchIdx (normalizedGradebook ⟨["Email"], [[.str "x@y.com"]]⟩) "nan" = none
    ∧ (update_brightspace_grades ⟨["Email"], [[.str "x@y.com"]]⟩
        ⟨["NAME", "EMAIL"], [[.str "G", .str " NAN "]]⟩ [] false).2.notFound = 0 := by
  refine ⟨by decide, by decide, by decide, by decide⟩

/-- C6 (amended): for a provider row whose normalised email is non-empty,
is not the literal string `"nan"`, and equals no gradebook row's
normalised email, the per-row merge step increments the Students Not
Found counter by exactly one and leaves the table — every cell of every
row — unchanged. -/
theorem claim6_unmatched_email (bz : Bool) (mapping : List (String × String))
    (ccols : List String) (df : DataFrame) (sm : Summary) (crow : List Value)
    (hnan : rowEmailNorm ccols crow ≠ "nan")
    (hne : pyStrip (rowEmailNorm ccols crow) ≠ "")
    (hnomatch : ∀ r ∈ df.rows,
      rowGet df.cols r "Email_normalized" ≠ Value.str (rowEmailNorm ccols crow)) :
    processRow bz mapping ccols (df, sm) crow
      = (df, { sm with notFound := sm.notFound + 1 }) := by
  have hs : rowSkipped (rowEmailNorm ccols crow) = false := by
    unfold rowSkipped
    simp [hnan, hne]
  have hm : matchIdx df (rowEmailNorm ccols crow) = none := by
    apply firstIdx_none
    intro r hr
    simpa using hnomatch r hr
  unfold processRow
  simp only [hs, Bool.false_eq_true, if_false, hm]

/-- Witness for C6 at a concrete unknown email. -/
theorem claim6_unmatched_email_witness :
    processRow false [] ["EMAIL_normalized"]
        (⟨["Email", "Email_normalized"], [[.str "x@y.com", .str "x@y.com"]]⟩, zeroSummary)
        [Value.str "ghost@x.com"]
      = (⟨["Email", "Email_normalized"], [[.str "x@y.com", .str "x@y.com"]]⟩,
         ⟨0, 0, 1, 0, 0, 0⟩) :=
  claim6_unmatched_email false [] ["EMAIL_normalized"] _ _ _
    (by decide) (by decide) (by decide)

/-! ## Lemmas for the frame theorem (C3) -/

theorem firstIdx_congr {p : α → Bool} {q : β → Bool} {a : α} {b : β} :
    ∀ {l₁ : List α} {l₂ : List β}, l₁.length = l₂.length →
      (∀ i, i < l₁.length → p (l₁.getD i a) = q (l₂.getD i b)) →
      firstIdx p l₁ = firstIdx q l₂ := by
  intro l₁
  induction l₁ with
  | nil =>
    intro l₂ hlen _
    cases l₂ with
    | nil => rfl
    | cons y ys => simp at hlen
  | cons x xs ih =>
    intro l₂ hlen hpt
    cases l₂ with
    | nil => simp at hlen
    | cons y ys =>
      have h0 : p x = q y := by
        have := hpt 0 (by simp)
        simpa [List.getD] using this
      have hrest : firstIdx p xs = firstIdx q ys := by
        apply ih (by simpa using hlen)
        intro i hi
        have := hpt (i + 1) (by simpa using Nat.succ_lt_succ hi)
        simpa [List.getD] using this
      unfold firstIdx
      rw [h0, hrest]

theorem rowGet_nil (cols : List String) (c : String) :
    rowGet cols ([] : List Value) c = .null := by
  unfold rowGet
  cases colIdx cols c with
  | none => rfl
  | some j => simp [List.getD_eq_getElem?_getD]

theorem getCell_of_ge {df : DataFrame} {i : Nat} (h : df.rows.length ≤ i) (c : String) :
    getCell df i c = .null := by
  unfold getCell
  rw [getD_of_ge h, rowGet_nil]

theorem wf_of_forall_getD {df : DataFrame}
    (h : ∀ i, i < df.rows.length → (df.rows.getD i []).length = df.cols.length) :
    wf df = true := by
  rw [wf, List.all_eq_true]
  intro r hr
  obtain ⟨k, hk, hkr⟩ := List.mem_iff_getElem.mp hr
  have hlen := h k hk
  rw [List.getD_eq_getElem?_getD, List.getElem?_eq_getElem hk, Option.getD_some] at hlen
  simp [← hkr, hlen]

theorem wf_setCell {df : DataFrame} (h : wf df = true) (i : Nat) (c : String) (v : Value) :
    wf (setCell df i c v) = true := by
  unfold setCell
  cases hx : colIdx df.cols c with
  | none => exact h
  | some j =>
    simp only
    apply wf_of_forall_getD
    intro k hk
    simp only [List.length_set] at hk
    by_cases hik : i = k
    · subst hik
      show ((df.rows.set i ((df.rows.getD i []).set j v)).getD i []).length = _
      rw [getD_set_self hk, List.length_set]
      exact wf_row_length h hk
    · show ((df.rows.set i ((df.rows.getD i []).set j v)).getD k []).length = _
      rw [getD_set_ne hik]
      exact wf_row_length h hk

theorem normalizedGradebook_eq (bdf : DataFrame)
    (hEN : "Email_normalized" ∉ bdf.cols) :
    normalizedGradebook bdf
      = ⟨bdf.cols ++ ["Email_normalized"],
         List.zipWith (fun r v => r ++ [v]) bdf.rows
           ((colVals bdf "Email").map (fun v => .str (normCell v)))⟩ := by
  unfold normalizedGradebook assignCol
  rw [colIdx_not_mem hEN]

theorem normalizedGradebook_cols (bdf : DataFrame)
    (hEN : "Email_normalized" ∉ bdf.cols) :
    (normalizedGradebook bdf).cols = bdf.cols ++ ["Email_normalized"] := by
  rw [normalizedGradebook_eq bdf hEN]

theorem normalizedGradebook_rows_length (bdf : DataFrame)
    (hEN : "Email_normalized" ∉ bdf.cols) :
    (normalizedGradebook bdf).rows.length = bdf.rows.length := by
  rw [normalizedGradebook_eq bdf hEN]
  simp [colVals]

theorem normalizedGradebook_wf (bdf : DataFrame)
    (hEN : "Email_normalized" ∉ bdf.cols) (hwf : wf bdf = true) :
    wf (normalizedGradebook bdf) = true := by
  rw [normalizedGradebook_eq bdf hEN]
  apply wf_of_forall_getD
  intro k hk
  simp only [List.length_zipWith, List.length_map, colVals, Nat.min_self] at hk
  have hkv : k < ((colVals bdf "Email").map (fun v => Value.str (normCell v))).length := by
    simpa [colVals]
  rw [show (DataFrame.mk (bdf.cols ++ ["Email_normalized"])
        (List.zipWith (fun r v => r ++ [v]) bdf.rows
          ((colVals bdf "Email").map (fun v => .str (normCell v))))).rows
      = List.zipWith (fun r v => r ++ [v]) bdf.rows
          ((colVals bdf "Email").map (fun v => .str (normCell v))) from rfl]
  rw [getD_zipWith (a := []) (b := .null) hk hkv]
  simp
  have hr := wf_row_length hwf hk
  rw [List.getD_eq_getElem?_getD] at hr
  exact hr

theorem getCell_normalizedGradebook (bdf : DataFrame)
    (hEN : "Email_normalized" ∉ bdf.cols) (hwf : wf bdf = true)
    (i : Nat) (c : String) (hc : c ∈ bdf.cols) :
    getCell (normalizedGradebook bdf) i c = getCell bdf i c := by
  obtain ⟨j, hj⟩ := colIdx_mem hc
  have hjlt : j < bdf.cols.length := firstIdx_lt hj
  have hj2 : colIdx (bdf.cols ++ ["Email_normalized"]) c = some j :=
    firstIdx_append_of_some _ hj
  rw [normalizedGradebook_eq bdf hEN]
  by_cases hi : i < bdf.rows.length
  · have hkv : i < ((colVals bdf "Email").map (fun v => Value.str (normCell v))).length := by
      simpa [colVals]
    unfold getCell
    rw [rowGet_eq hj2, rowGet_eq hj]
    rw [show (DataFrame.mk (bdf.cols ++ ["Email_normalized"])
          (List.zipWith (fun r v => r ++ [v]) bdf.rows
            ((colVals bdf "Email").map (fun v => .str (normCell v))))).rows
        = List.zipWith (fun r v => r ++ [v]) bdf.rows
            ((colVals bdf "Email").map (fun v => .str (normCell v))) from rfl]
    rw [getD_zipWith (a := []) (b := .null) hi hkv]
    exact getD_append_left (by rw [wf_row_length hwf hi]; exact hjlt)
  · have hge : bdf.rows.length ≤ i := Nat.le_of_not_lt hi
    have h1 : (DataFrame.mk (bdf.cols ++ ["Email_normalized"])
          (List.zipWith (fun r v => r ++ [v]) bdf.rows
            ((colVals bdf "Email").map (fun v => .str (normCell v))))).rows.length ≤ i := by
      simp only [List.length_zipWith, List.length_map, colVals, Nat.min_self]
      exact hge
    rw [getCell_of_ge h1, getCell_of_ge hge]

theorem setCell_frameInv {bdf cdf : DataFrame} {sel : List String} {df : DataFrame}
    (hT : "Email_normalized" ∉ mergeTargets bdf sel)
    {i : Nat} {bc : String} {v : Value}
    (hbc : bc ∈ mergeTargets bdf sel)
    (hmi : matchedRow bdf cdf i = true)
    (h : FrameInv bdf cdf sel df) :
    FrameInv bdf cdf sel (setCell df i bc v) := by
  obtain ⟨h1, h2, h3, h4, h5⟩ := h
  refine ⟨(setCell_cols df i bc v).trans h1,
          (setCell_rows_length df i bc v).trans h2,
          wf_setCell h3 i bc v, ?_, ?_⟩
  · intro k
    rw [getCell_setCell_ne (Or.inl ?_)]
    · exact h4 k
    · intro hEq
      exact hT (hEq ▸ hbc)
  · intro k c hcmem hcond
    have hne : bc ≠ c ∨ i ≠ k := by
      rcases hcond with hcT | hM
      · left
        intro hEq
        exact hcT (hEq ▸ hbc)
      · right
        intro hEq
        rw [hEq, hM] at hmi
        exact Bool.noConfusion hmi
    rw [getCell_setCell_ne hne]
    exact h5 k c hcmem hcond

theorem processPair_frameInv {bdf cdf : DataFrame} {sel : List String}
    (hT : "Email_normalized" ∉ mergeTargets bdf sel)
    (bz : Bool) (ccols : List String) (crow : List Value) {i : Nat}
    (hmi : matchedRow bdf cdf i = true)
    {df : DataFrame} (sm : Summary) {pr : String × String}
    (hbc : pr.2 ∈ mergeTargets bdf sel)
    (h : FrameInv bdf cdf sel df) :
    FrameInv bdf cdf sel (processPair bz ccols crow i (df, sm) pr).1 := by
  unfold processPair
  by_cases h1 : ccols.contains pr.1 = true
  · rw [if_pos h1]
    by_cases h2 : isBlank (rowGet ccols crow pr.1) = true
    · rw [if_pos h2]
      cases bz with
      | true =>
        rw [if_pos rfl]
        exact setCell_frameInv hT hbc hmi h
      | false =>
        rw [if_neg (by simp)]
        exact h
    · rw [if_neg h2]
      exact setCell_frameInv hT hbc hmi h
  · rw [if_neg h1]
    exact h

theorem matchIdx_stable {bdf cdf : DataFrame} {sel : List String} {df : DataFrame}
    (h : FrameInv bdf cdf sel df) (e : String) :
    matchIdx df e = matchIdx (normalizedGradebook bdf) e := by
  obtain ⟨h1, h2, _, h4, _⟩ := h
  unfold matchIdx
  apply firstIdx_congr (a := []) (b := []) h2
  intro i hi
  show (rowGet df.cols (df.rows.getD i []) "Email_normalized" == Value.str e)
      = (rowGet (normalizedGradebook bdf).cols
            ((normalizedGradebook bdf).rows.getD i []) "Email_normalized" == Value.str e)
  rw [show rowGet df.cols (df.rows.getD i []) "Email_normalized"
      = getCell df i "Email_normalized" from rfl,
    show rowGet (normalizedGradebook bdf).cols
        ((normalizedGradebook bdf).rows.getD i []) "Email_normalized"
      = getCell (normalizedGradebook bdf) i "Email_normalized" from rfl,
    h4 i]

theorem processRow_skip {bz : Bool} {mapping : List (String × String)}
    {ccols : List String} {st : DataFrame × Summary} {crow : List Value}
    (hs : rowSkipped (rowEmailNorm ccols crow) = true) :
    processRow bz mapping ccols st crow = st := by
  unfold processRow
  simp [hs]

theorem processRow_notFound {bz : Bool} {mapping : List (String × String)}
    {ccols : List String} {df : DataFrame} {sm : Summary} {crow : List Value}
    (hs : rowSkipped (rowEmailNorm ccols crow) = false)
    (hm : matchIdx df (rowEmailNorm ccols crow) = none) :
    processRow bz mapping ccols (df, sm) crow
      = (df, { sm with notFound := sm.notFound + 1 }) := by
  unfold processRow
  simp [hs, hm]

theorem processRow_matched {bz : Bool} {mapping : List (String × String)}
    {ccols : List String} {df : DataFrame} {sm : Summary} {crow : List Value} {i : Nat}
    (hs : rowSkipped (rowEmailNorm ccols crow) = false)
    (hm : matchIdx df (rowEmailNorm ccols crow) = some i) :
    processRow bz mapping ccols (df, sm) crow
      = mapping.foldl (processPair bz ccols crow i)
          (df, { sm with matched := sm.matched + 1 }) := by
  unfold processRow
  simp [hs, hm]

theorem pairsFold_frameInv {bdf cdf : DataFrame} {sel : List String}
    (hT : "Email_normalized" ∉ mergeTargets bdf sel)
    (bz : Bool) (ccols : List String) (crow : List Value) {i : Nat}
    (hmi : matchedRow bdf cdf i = true) :
    ∀ (pairs : List (String × String)) (df : DataFrame) (sm : Summary),
      (∀ pr ∈ pairs, pr.2 ∈ mergeTargets bdf sel) →
      FrameInv bdf cdf sel df →
      FrameInv bdf cdf sel (pairs.foldl (processPair bz ccols crow i) (df, sm)).1 := by
  intro pairs
  induction pairs with
  | nil =>
    intro df sm _ h
    exact h
  | cons pr ps ih =>
    intro df sm hps h
    rw [List.foldl_cons]
    have h' := processPair_frameInv hT bz ccols crow hmi sm (hps pr (by simp)) h
    have hrec := ih (processPair bz ccols crow i (df, sm) pr).1
      (processPair bz ccols crow i (df, sm) pr).2
      (fun q hq => hps q (by simp [hq])) h'
    simpa using hrec

theorem processRow_frameInv {bdf cdf : DataFrame} {sel : List String}
    (hT : "Email_normalized" ∉ mergeTargets bdf sel)
    (bz : Bool) {df : DataFrame} (sm : Summary) {crow : List Value}
    (hrow : crow ∈ (normalizedProvider cdf).rows)
    (h : FrameInv bdf cdf sel df) :
    FrameInv bdf cdf sel
      (processRow bz (create_dynamic_column_mapping sel (normalizedGradebook bdf).cols)
        (normalizedProvider cdf).cols (df, sm) crow).1 := by
  by_cases hs : rowSkipped (rowEmailNorm (normalizedProvider cdf).cols crow) = true
  · rw [processRow_skip hs]
    exact h
  · have hs' : rowSkipped (rowEmailNorm (normalizedProvider cdf).cols crow) = false :=
      Bool.not_eq_true _ ▸ (by simpa using hs)
    cases hm : matchIdx df (rowEmailNorm (normalizedProvider cdf).cols crow) with
    | none =>
      rw [processRow_notFound hs' hm]
      exact h
    | some i =>
      have hmu : matchIdx (normalizedGradebook bdf)
          (rowEmailNorm (normalizedProvider cdf).cols crow) = some i := by
        rw [← matchIdx_stable h]
        exact hm
      have hmi : matchedRow bdf cdf i = true := by
        unfold matchedRow
        rw [List.any_eq_true]
        refine ⟨crow, hrow, ?_⟩
        simp [hs', hmu]
      rw [processRow_matched hs' hm]
      exact pairsFold_frameInv hT bz _ _ hmi _ df _
        (fun pr hpr => List.mem_map_of_mem _ hpr) h

theorem rowsFold_frameInv {bdf cdf : DataFrame} {sel : List String}
    (hT : "Email_normalized" ∉ mergeTargets bdf sel) (bz : Bool) :
    ∀ (rs : List (List Value)) (df : DataFrame) (sm : Summary),
      (∀ r ∈ rs, r ∈ (normalizedProvider cdf).rows) →
      FrameInv bdf cdf sel df →
      FrameInv bdf cdf sel
        (rs.foldl (processRow bz
            (create_dynamic_column_mapping sel (normalizedGradebook bdf).cols)
            (normalizedProvider cdf).cols) (df, sm)).1 := by
  intro rs
  induction rs with
  | nil =>
    intro df sm _ h
    exact h
  | cons r rs ih =>
    intro df sm hrs h
    rw [List.foldl_cons]
    have h' := processRow_frameInv hT bz sm (hrs r (by simp)) h
    have hrec := ih
      (processRow bz (create_dynamic_column_mapping sel (normalizedGradebook bdf).cols)
        (normalizedProvider cdf).cols (df, sm) r).1
      (processRow bz (create_dynamic_column_mapping sel (normalizedGradebook bdf).cols)
        (normalizedProvider cdf).cols (df, sm) r).2
      (fun q hq => hrs q (by simp [hq])) h'
    simpa using hrec

theorem dropCol_last_frame {df : DataFrame} {l : List String}
    (hcols : df.cols = l ++ ["Email_normalized"])
    (hE : "Email_normalized" ∉ l) :
    (dropCol df "Email_normalized").cols = l
    ∧ (dropCol df "Email_normalized").rows.length = df.rows.length
    ∧ ∀ i c, c ∈ l → getCell (dropCol df "Email_normalized") i c = getCell df i c := by
  have hnone : firstIdx (fun x => x == "Email_normalized") l = none := by
    apply firstIdx_none
    intro x hx
    simp only [beq_eq_false_iff_ne, ne_eq]
    rintro rfl
    exact hE hx
  have hidx : colIdx df.cols "Email_normalized" = some l.length := by
    rw [hcols]
    unfold colIdx
    rw [firstIdx_append_of_none _ hnone]
    simp [firstIdx]
  have hdc : dropCol df "Email_normalized"
      = ⟨l, df.rows.map (fun r => r.eraseIdx l.length)⟩ := by
    unfold dropCol
    simp only [hidx]
    rw [hcols, eraseIdx_append_len]
  refine ⟨by rw [hdc], by rw [hdc]; simp, ?_⟩
  intro i c hc
  obtain ⟨j, hj⟩ := colIdx_mem hc
  have hjlt : j < l.length := firstIdx_lt hj
  have hjdf : colIdx df.cols c = some j := by
    rw [hcols]
    exact firstIdx_append_of_some _ hj
  rw [hdc]
  by_cases hi : i < df.rows.length
  · show rowGet l ((df.rows.map (fun r => r.eraseIdx l.length)).getD i []) c
      = getCell df i c
    rw [rowGet_eq hj, getD_map (e := []) hi, getD_eraseIdx_lt hjlt]
    unfold getCell
    rw [rowGet_eq hjdf]
  · have hge := Nat.le_of_not_lt hi
    rw [getCell_of_ge (by simpa using hge) c, getCell_of_ge hge c]

theorem update_eq_of_cond {bdf cdf : DataFrame} {sel : List String} {bz : Bool}
    (hcond : (bdf.cols.contains "Email" && cdf.cols.contains "EMAIL") = true) :
    update_brightspace_grades bdf cdf sel bz
      = (dropCol ((normalizedProvider cdf).rows.foldl
            (processRow bz (create_dynamic_column_mapping sel (normalizedGradebook bdf).cols)
              (normalizedProvider cdf).cols)
            (normalizedGradebook bdf,
             { matched := 0, updated := 0, notFound := 0,
               selectedCount := sel.length,
               mappedCount := (create_dynamic_column_mapping sel
                 (normalizedGradebook bdf).cols).length,
               blankProcessed := 0 })).1 "Email_normalized",
         ((normalizedProvider cdf).rows.foldl
            (processRow bz (create_dynamic_column_mapping sel (normalizedGradebook bdf).cols)
              (normalizedProvider cdf).cols)
            (normalizedGradebook bdf,
             { matched := 0, updated := 0, notFound := 0,
               selectedCount := sel.length,
               mappedCount := (create_dynamic_column_mapping sel
                 (normalizedGradebook bdf).cols).length,
               blankProcessed := 0 })).2) := by
  unfold update_brightspace_grades
  rw [hcond]
  rfl

/-- C3 counterexample: a gradebook that already contains a column named
`Email_normalized` loses it — the merge overwrites that column with
normalised emails and then drops it, so the output's columns differ from
the input's (the claim asserts they are always identical). -/
theorem claim3_counterexample :
    (update_brightspace_grades ⟨["Email", "Email_normalized"], [[.str "a@x.com", .str "z"]]⟩
        ⟨["NAME", "EMAIL"], []⟩ [] false).1.cols
      ≠ ["Email", "Email_normalized"] := by
  decide

/-- C3 (amended): provided the gradebook table has no column named
`Email_normalized` (the merge's internal helper column) and the resolved
mapping does not target that helper column, the returned table has
exactly the input gradebook's columns and row count, and every cell in
an original column that is outside the mapping's target columns, or in a
row matched by no provider row, is unchanged.  (The source operates on a
copy — app.py line 448 — so the caller's table object is never mutated;
in this pure embedding that is inherent.) -/
theorem claim3_frame (bdf cdf : DataFrame) (sel : List String) (bz : Bool)
    (hwf : wf bdf = true)
    (hEN : "Email_normalized" ∉ bdf.cols)
    (hT : "Email_normalized" ∉ mergeTargets bdf sel) :
    (update_brightspace_grades bdf cdf sel bz).1.cols = bdf.cols
    ∧ (update_brightspace_grades bdf cdf sel bz).1.rows.length = bdf.rows.length
    ∧ ∀ i : Nat, ∀ c : String, c ∈ bdf.cols →
        (c ∉ mergeTargets bdf sel ∨ matchedRow bdf cdf i = false) →
        getCell (update_brightspace_grades bdf cdf sel bz).1 i c = getCell bdf i c := by
  cases hcond : (bdf.cols.contains "Email" && cdf.cols.contains "EMAIL") with
  | false =>
    have hupd : update_brightspace_grades bdf cdf sel bz = (bdf, zeroSummary) := by
      unfold update_brightspace_grades
      rw [hcond]
      simp
    rw [hupd]
    exact ⟨rfl, rfl, fun i c _ _ => rfl⟩
  | true =>
    rw [update_eq_of_cond hcond]
    have base : FrameInv bdf cdf sel (normalizedGradebook bdf) :=
      ⟨rfl, rfl, normalizedGradebook_wf bdf hEN hwf, fun _ => rfl, fun _ _ _ _ => rfl⟩
    have hinv := rowsFold_frameInv hT bz (normalizedProvider cdf).rows
      (normalizedGradebook bdf)
      { matched := 0, updated := 0, notFound := 0,
        selectedCount := sel.length,
        mappedCount := (create_dynamic_column_mapping sel
          (normalizedGradebook bdf).cols).length,
        blankProcessed := 0 }
      (fun r hr => hr) base
    obtain ⟨h1, h2, h3, h4, h5⟩ := hinv
    have hRcols : ((normalizedProvider cdf).rows.foldl
        (processRow bz (create_dynamic_column_mapping sel (normalizedGradebook bdf).cols)
          (normalizedProvider cdf).cols)
        (normalizedGradebook bdf,
         { matched := 0, updated := 0, notFound := 0,
           selectedCount := sel.length,
           mappedCount := (create_dynamic_column_mapping sel
             (normalizedGradebook bdf).cols).length,
           blankProcessed := 0 })).1.cols = bdf.cols ++ ["Email_normalized"] :=
      h1.trans (normalizedGradebook_cols bdf hEN)
    obtain ⟨hd1, hd2, hd3⟩ := dropCol_last_frame hRcols hEN
    refine ⟨hd1, ?_, ?_⟩
    · exact hd2.trans (h2.trans (normalizedGradebook_rows_length bdf hEN))
    · intro i c hc hcond'
      exact (hd3 i c hc).trans
        ((h5 i c hc hcond').trans (getCell_normalizedGradebook bdf hEN hwf i c hc))

/-- Witness for C3 at a concrete gradebook and provider pair. -/
theorem claim3_frame_witness :
    (update_brightspace_grades ⟨["Email", "Quiz Grade"], [[.str "a@x.com", .str "keep"]]⟩
        ⟨["NAME", "EMAIL"], [[.str "G", .str "ghost@x.com"]]⟩ [] true).1.cols
      = ["Email", "Quiz Grade"]
    ∧ (update_brightspace_grades ⟨["Email", "Quiz Grade"], [[.str "a@x.com", .str "keep"]]⟩
        ⟨["NAME", "EMAIL"], [[.str "G", .str "ghost@x.com"]]⟩ [] true).1.rows.length = 1
    ∧ getCell (update_brightspace_grades ⟨["Email", "Quiz Grade"], [[.str "a@x.com", .str "keep"]]⟩
        ⟨["NAME", "EMAIL"], [[.str "G", .str "ghost@x.com"]]⟩ [] true).1 0 "Quiz Grade"
      = getCell ⟨["Email", "Quiz Grade"], [[.str "a@x.com", .str "keep"]]⟩ 0 "Quiz Grade" := by
  have h := claim3_frame ⟨["Email", "Quiz Grade"], [[.str "a@x.com", .str "keep"]]⟩
    ⟨["NAME", "EMAIL"], [[.str "G", .str "ghost@x.com"]]⟩ [] true
    (by decide) (by decide) (by decide)
  exact ⟨h.1, h.2.1, h.2.2 0 "Quiz Grade" (by decide) (Or.inl (by decide))⟩
